import Mathlib

/-!
Shallow embedding of the task-execution tracking core of the
vscode_mcp_task_extension repository (src/out/taskProvider.js,
src/out/mcpTools.js, src/out/mcpServer.js), together with proofs of the
behavioural claims stated about it.

JavaScript strings are modelled as Lean `String`; JS `Map` objects (insertion
ordered, in-place update) as association lists; `Date.now()` readings are
passed in as explicit `Int` parameters; asynchronous rejections are modelled
with `Except String`.
-/

namespace VsMcpTask

/-- JS truthiness of a string: the empty string is falsy. -/
def jsTruthyStr (s : String) : Bool := !s.data.isEmpty

/-- JS truthiness of an optional string: `undefined` and `""` are falsy. -/
def jsTruthy : Option String → Bool
  | none => false
  | some s => jsTruthyStr s

/-- `String.prototype.toLowerCase`, modelled per-character. -/
def lowerStr (s : String) : List Char := s.data.map Char.toLower

/-- `String.prototype.startsWith` on character lists. -/
def startsWithL : List Char → List Char → Bool
  | _, [] => true
  | [], _ :: _ => false
  | a :: as, b :: bs => a == b && startsWithL as bs

/-- `String.prototype.includes` on character lists: substring containment. -/
def includesL : List Char → List Char → Bool
  | [], needle => needle.isEmpty
  | a :: as, needle => startsWithL (a :: as) needle || includesL as needle

/-- `String.prototype.includes` on strings. -/
def strIncludes (hay needle : String) : Bool := includesL hay.data needle.data

/-- Case-insensitive containment, as in the list-filter predicate. -/
def strIncludesCI (hay needle : String) : Bool := includesL (lowerStr hay) (lowerStr needle)

/-- JS template rendering of a boolean. -/
def boolStr : Bool → String
  | true => "true"
  | false => "false"

/-- First element satisfying the predicate: JS `Array.prototype.find` and
the key probe of the `Map` operations. -/
def listFind {β : Type} (p : β → Bool) : List β → Option β
  | [] => none
  | a :: as => if p a then some a else listFind p as

/-- A JS `Map` with string keys: an insertion-ordered association list. -/
abbrev JsMap (α : Type) := List (String × α)

/-- `Map.prototype.get`. -/
def mapGet {α : Type} (m : JsMap α) (k : String) : Option α :=
  (listFind (fun p => p.1 == k) m).map Prod.snd

/-- `Map.prototype.has`. -/
def mapHas {α : Type} (m : JsMap α) (k : String) : Bool :=
  (listFind (fun p => p.1 == k) m).isSome

/-- `Map.prototype.set`: update in place when the key exists (preserving
insertion order), append otherwise. -/
def mapSet {α : Type} (m : JsMap α) (k : String) (v : α) : JsMap α :=
  if mapHas m k then m.map (fun p => if p.1 == k then (k, v) else p)
  else m ++ [(k, v)]

/-- `Map.prototype.delete`. -/
def mapDelete {α : Type} (m : JsMap α) (k : String) : JsMap α :=
  m.filter (fun p => p.1 != k)

/-- `Map.prototype.values()` as a list. -/
def mapValues {α : Type} (m : JsMap α) : List α := m.map Prod.snd

/-! ## Data model -/

/-- The fields of a `vscode.Task` that the tracker reads (`scope` is already
rendered to the string that JS template interpolation would produce). -/
structure VsTask where
  name : String
  source : String
  scope : String
deriving DecidableEq, Repr

/-- A `vscode.TaskExecution`: a live handle carrying its task. -/
structure TaskExecution where
  task : VsTask
deriving DecidableEq, Repr

/-- `TaskProvider.getTaskId` (taskProvider.js line 86):
the composite handle key `source-name-scope`. -/
def getTaskId (t : VsTask) : String := t.source ++ "-" ++ t.name ++ "-" ++ t.scope

/-- `TaskExecutionResult` (types.ts / taskProvider.js): the completion record
buffered per handle key. -/
structure ExecutionResult where
  taskName : String
  exitCode : Option Int := none
  success : Bool
  output : Option String := none
  error : Option String := none
  duration : Int
deriving DecidableEq, Repr

/-- The execution-info block produced by `getExecutionInfo`. -/
structure ExecInfo where
  type : String
  command : Option String := none
  args : List String := []
deriving DecidableEq, Repr

/-- A `TaskInfo` as produced by `TaskProvider.getAllTasks` (taskProvider.js
lines 92-101); `definition` is the opaque provider payload, carried here in
its serialized form. -/
structure TaskInfo where
  name : String
  source : String
  group : String
  scope : String
  definition : String
  execution : Option ExecInfo := none
  isBackground : Bool := false
  problemMatchers : List String := []
deriving DecidableEq, Repr

/-- The mutable state of `TaskProvider`: the two correlation maps. -/
structure TaskProviderState where
  taskExecutions : JsMap TaskExecution
  executionResults : JsMap ExecutionResult
deriving DecidableEq, Repr

/-! ## Event handlers (taskProvider.js `setupTaskEventListeners`, lines 46-84) -/

/-- `onDidStartTask` handler (lines 48-52): register the live handle. -/
def onDidStartTask (s : TaskProviderState) (e : TaskExecution) : TaskProviderState :=
  { s with taskExecutions := mapSet s.taskExecutions (getTaskId e.task) e }

/-- `onDidEndTask` handler (lines 54-65): synthesize a provisional
success result and deactivate the handle. `t1` and `t2` are the two
successive `Date.now()` readings the handler takes. -/
def onDidEndTask (s : TaskProviderState) (e : TaskExecution) (t1 t2 : Int) : TaskProviderState :=
  let taskId := getTaskId e.task
  let result : ExecutionResult :=
    { taskName := e.task.name, success := true, duration := t2 - t1 }
  { s with executionResults := mapSet s.executionResults taskId result,
           taskExecutions := mapDelete s.taskExecutions taskId }

/-- `onDidEndTaskProcess` handler (lines 72-83): patch the buffered result
with the exit code, if one is buffered; otherwise drop the event.
JS `e.exitCode === 0` is false when `exitCode` is `undefined`. -/
def onDidEndTaskProcess (s : TaskProviderState) (e : TaskExecution)
    (exitCode : Option Int) : TaskProviderState :=
  let taskId := getTaskId e.task
  match mapGet s.executionResults taskId with
  | some r =>
      let r2 := { r with exitCode := exitCode,
                         success := match exitCode with
                                    | some c => c == 0
                                    | none => false }
      { s with executionResults := mapSet s.executionResults taskId r2 }
  | none => s

/-! ## Completion polling (taskProvider.js `executeTask`, lines 160-193) -/

/-- Outcome of one body of the 100ms `checkCompletion` poll. -/
inductive PollStep where
  | resolved (r : ExecutionResult) (s : TaskProviderState)
  | waiting
  | fallbackResolved (r : ExecutionResult) (s : TaskProviderState)
deriving DecidableEq, Repr

/-- One execution of `checkCompletion` (lines 165-184): consume and delete a
buffered result if present; otherwise keep polling while the handle is
active; otherwise resolve with the synthesized fallback success result.
`now` and `startTime` are the `Date.now()` readings used for the fallback
duration. -/
def checkCompletion (s : TaskProviderState) (taskId taskName : String)
    (now startTime : Int) : PollStep :=
  match mapGet s.executionResults taskId with
  | some result =>
      .resolved result { s with executionResults := mapDelete s.executionResults taskId }
  | none =>
      if mapHas s.taskExecutions taskId then .waiting
      else .fallbackResolved
        { taskName := taskName, success := true, duration := now - startTime } s

/-- The 5-minute timeout callback (lines 188-192): reject with a timeout
message while the handle is still active; the state is returned unchanged —
the callback neither clears the maps nor terminates the task. -/
def onTimeout (s : TaskProviderState) (taskId taskName : String) :
    Option String × TaskProviderState :=
  if mapHas s.taskExecutions taskId then
    (some ("Task \x27" ++ taskName ++ "\x27 timed out after 5 minutes"), s)
  else (none, s)

/-! ## Task resolution (taskProvider.js `executeTask` lines 151-159,
mcpTools.js `getTaskDetails` lines 203-207) -/

/-- The name/source resolution shared by `executeTask` and `getTaskDetails`:
first match on name alone; only when that fails and `source` is truthy, try
name and source together. -/
def findTask (tasks : List VsTask) (taskName : String) (source : Option String) :
    Option VsTask :=
  match listFind (fun t => t.name == taskName) tasks with
  | some t => some t
  | none =>
      if jsTruthy source then
        listFind (fun t => t.name == taskName && t.source == source.getD "") tasks
      else none

/-- The same resolution over enumerated `TaskInfo` records, as in
`getTaskDetails`. -/
def findTaskInfo (tasks : List TaskInfo) (taskName : String) (source : Option String) :
    Option TaskInfo :=
  match listFind (fun t => t.name == taskName) tasks with
  | some t => some t
  | none =>
      if jsTruthy source then
        listFind (fun t => t.name == taskName && t.source == source.getD "") tasks
      else none

/-- The `source:name` enumeration used in the not-found error
(taskProvider.js line 157). -/
def availableTasksStr (tasks : List VsTask) : String :=
  String.intercalate ", " (tasks.map (fun t => t.source ++ ":" ++ t.name))

/-- The not-found message thrown by `TaskProvider.executeTask` (line 158). -/
def notFoundMsg (tasks : List VsTask) (taskName : String) : String :=
  "Task \x27" ++ taskName ++ "\x27 not found. Available tasks: " ++ availableTasksStr tasks

/-- The wrapper added by `TaskProvider.executeTask`'s catch block
(line 199) around errors thrown before the completion promise is returned. -/
def providerWrap (taskName msg : String) : String :=
  "Failed to execute task \x27" ++ taskName ++ "\x27: " ++ msg

/-! ## Facade (mcpTools.js `MCPTools`) -/

/-- The uniform result shape: one text content item plus the error flag
(absent flag modelled as `false`). -/
structure Outcome where
  text : String
  isError : Bool := false
deriving DecidableEq, Repr

/-- Arguments carried by a tool call; absent fields are `none`. -/
structure ToolArgs where
  taskName : Option String := none
  source : Option String := none
  filter : Option String := none
deriving DecidableEq, Repr

/-- The filter predicate of `listTasks` (mcpTools.js lines 122-124):
name, source, or (truthy) group contains the lowercased filter. -/
def taskMatchesFilter (filter : String) (t : TaskInfo) : Bool :=
  strIncludesCI t.name filter ||
  strIncludesCI t.source filter ||
  (jsTruthyStr t.group && strIncludesCI t.group filter)

/-- The filtering step of `listTasks` (mcpTools.js lines 119-125): the
filter applies only when truthy (present and nonempty). -/
def listTasksFiltered (tasks : List TaskInfo) (filter : Option String) : List TaskInfo :=
  if jsTruthy filter then tasks.filter (taskMatchesFilter (filter.getD ""))
  else tasks

/-- One bullet line of the `listTasks` rendering (mcpTools.js lines 126-133). -/
def renderTaskLine (t : TaskInfo) : String :=
  let executionInfo := match t.execution with
    | some e => "\n  Execution: " ++ e.type ++ " - " ++
        (match e.command with
         | some c => if jsTruthyStr c then c else "custom"
         | none => "custom")
    | none => ""
  let groupInfo := if t.group != "none" then "\n  Group: " ++ t.group else ""
  let scopeInfo := "\n  Scope: " ++ t.scope
  let backgroundInfo := if t.isBackground then "\n  Background: true" else ""
  "• " ++ t.name ++ " (" ++ t.source ++ ")" ++ executionInfo ++ groupInfo ++
    scopeInfo ++ backgroundInfo

/-- The `listTasks` operation (mcpTools.js lines 117-141). -/
def listTasksOutcome (tasks : List TaskInfo) (filter : Option String) : Outcome :=
  let filteredTasks := listTasksFiltered tasks filter
  let summary := "Found " ++ toString filteredTasks.length ++ " tasks" ++
    (if jsTruthy filter then " matching filter \x27" ++ filter.getD "" ++ "\x27" else "") ++
    ":\n\n" ++ String.intercalate "\n" (filteredTasks.map renderTaskLine)
  { text := summary }

/-- The rendering of a completed execution (mcpTools.js lines 147-159). -/
def renderExecuteResult (result : ExecutionResult) : Outcome :=
  let statusText := if result.success then "SUCCESS" else "FAILED"
  let exitCodeText := match result.exitCode with
    | some c => " (exit code: " ++ toString c ++ ")"
    | none => ""
  let durationText := "Duration: " ++ toString result.duration ++ "ms"
  let outputText := match result.output with
    | some o => if jsTruthyStr o then "\nOutput:\n" ++ o else ""
    | none => ""
  let errorText := match result.error with
    | some e => if jsTruthyStr e then "\nError:\n" ++ e else ""
    | none => ""
  { text := "Task \x27" ++ result.taskName ++ "\x27 execution " ++ statusText ++
      exitCodeText ++ "\n" ++ durationText ++ outputText ++ errorText,
    isError := !result.success }

/-- The `execute_task` Facade handler (mcpTools.js lines 142-160 together
with the resolution part of taskProvider.js lines 148-199).  A thrown error
is `Except.error`.  `awaitResult` stands for what awaiting the completion
promise produced for the started run: `Except.error` for a rejection (the
timeout), `Except.ok` for a resolved result; a rejection of the returned
promise is not wrapped by the provider's catch block. -/
def mcpExecuteTaskHandler (tasks : List VsTask) (args : ToolArgs)
    (awaitResult : Except String ExecutionResult) : Except String Outcome :=
  if !jsTruthy args.taskName then .error "taskName is required"
  else
    let name := args.taskName.getD ""
    match findTask tasks name args.source with
    | none => .error (providerWrap name (notFoundMsg tasks name))
    | some _ =>
        match awaitResult with
        | .error m => .error m
        | .ok r => .ok (renderExecuteResult r)

/-- One line of the running-task rendering (mcpTools.js lines 171-175). -/
def renderRunningLine (t : TaskInfo) : String :=
  let executionInfo := match t.execution with
    | some e => " - " ++ e.type ++ ": " ++
        (match e.command with
         | some c => if jsTruthyStr c then c else "custom"
         | none => "custom")
    | none => ""
  "• " ++ t.name ++ " (" ++ t.source ++ ")" ++ executionInfo

/-- The `get_running_tasks` operation (mcpTools.js lines 161-182). -/
def runningTasksOutcome (running : List TaskInfo) : Outcome :=
  if running.isEmpty then { text := "No tasks are currently running." }
  else
    { text := "Currently running tasks (" ++ toString running.length ++ "):\n\n" ++
        String.intercalate "\n" (running.map renderRunningLine) }

/-- `TaskProvider.terminateTask` (taskProvider.js lines 219-236): find the
first active execution with the given task name; return `false` when none
exists (the throw is caught by the method's own catch block), otherwise
request termination.  `termSucceeds` stands for whether the external
`execution.terminate()` call runs without throwing. -/
def terminateTaskProvider (s : TaskProviderState) (taskName : String)
    (termSucceeds : Bool) : Bool :=
  match listFind (fun e => e.task.name == taskName) (mapValues s.taskExecutions) with
  | none => false
  | some _ => termSucceeds

/-- The rendering of the terminate outcome (mcpTools.js lines 187-197). -/
def terminateOutcome (success : Bool) (taskName : String) : Outcome :=
  { text := if success then
      "Task \x27" ++ taskName ++ "\x27 has been terminated successfully."
    else
      "Failed to terminate task \x27" ++ taskName ++
        "\x27. Task may not be running or termination failed.",
    isError := !success }

/-- The `terminate_task` Facade handler (mcpTools.js lines 183-198). -/
def mcpTerminateTaskHandler (s : TaskProviderState) (args : ToolArgs)
    (termSucceeds : Bool) : Except String Outcome :=
  if !jsTruthy args.taskName then .error "taskName is required"
  else
    let name := args.taskName.getD ""
    .ok (terminateOutcome (terminateTaskProvider s name termSucceeds) name)

/-- The detail lines rendered by `getTaskDetails` (mcpTools.js lines 217-236). -/
def detailLines (t : TaskInfo) : List String :=
  let base := ["Task Details for \x27" ++ t.name ++ "\x27:",
               "Source: " ++ t.source,
               "Group: " ++ (if jsTruthyStr t.group then t.group else "none"),
               "Scope: " ++ t.scope,
               "Background: " ++ boolStr t.isBackground]
  let execLines := match t.execution with
    | none => []
    | some e =>
        ["Execution Type: " ++ e.type] ++
        (match e.command with
         | some c => if jsTruthyStr c then ["Command: " ++ c] else []
         | none => []) ++
        (if e.args.isEmpty then [] else ["Arguments: " ++ String.intercalate " " e.args])
  let pmLines := if t.problemMatchers.isEmpty then []
    else ["Problem Matchers: " ++ String.intercalate ", " t.problemMatchers]
  base ++ execLines ++ pmLines ++ ["Definition: " ++ t.definition]

/-- The `get_task_details` resolution and rendering (mcpTools.js
lines 203-242). -/
def getTaskDetailsOutcome (tasks : List TaskInfo) (taskName : String)
    (source : Option String) : Outcome :=
  match findTaskInfo tasks taskName source with
  | none => { text := "Task \x27" ++ taskName ++ "\x27 not found.", isError := true }
  | some t => { text := String.intercalate "\n" (detailLines t) }

/-- The `get_task_details` Facade handler (mcpTools.js lines 199-243). -/
def mcpGetTaskDetailsHandler (tasks : List TaskInfo) (args : ToolArgs) :
    Except String Outcome :=
  if !jsTruthy args.taskName then .error "taskName is required"
  else .ok (getTaskDetailsOutcome tasks (args.taskName.getD "") args.source)

/-! ## Dispatch (mcpTools.js `executeTool` lines 85-116,
mcpServer.js `handleToolsCall` lines 528-538) -/

/-- The external inputs a tool call can observe: the registry enumeration,
the provider state, and the result of awaiting a started execution. -/
structure ToolEnv where
  taskInfos : List TaskInfo
  vsTasks : List VsTask
  provider : TaskProviderState
  awaitResult : Except String ExecutionResult
  termSucceeds : Bool
  runningTasks : List TaskInfo
deriving Repr

/-- The inner dispatch switch of `executeTool` (lines 88-101): route to the
named handler; `Except.error` is a throw reaching the catch block. -/
def runTool (env : ToolEnv) (toolName : String) (args : ToolArgs) :
    Except String Outcome :=
  if toolName == "list_tasks" then .ok (listTasksOutcome env.taskInfos args.filter)
  else if toolName == "execute_task" then
    mcpExecuteTaskHandler env.vsTasks args env.awaitResult
  else if toolName == "get_running_tasks" then .ok (runningTasksOutcome env.runningTasks)
  else if toolName == "terminate_task" then
    mcpTerminateTaskHandler env.provider args env.termSucceeds
  else if toolName == "get_task_details" then
    mcpGetTaskDetailsHandler env.taskInfos args
  else .error ("Unknown tool: " ++ toolName)

/-- The error Outcome built by `executeTool`'s catch block (lines 103-115). -/
def toolErrorOutcome (toolName msg : String) : Outcome :=
  { text := "Error executing tool \x27" ++ toolName ++ "\x27: " ++ msg, isError := true }

/-- `MCPTools.executeTool` (lines 85-116): run the handler and convert any
throw into an error Outcome. -/
def executeTool (env : ToolEnv) (toolName : String) (args : ToolArgs) : Outcome :=
  match runTool env toolName args with
  | .ok o => o
  | .error msg => toolErrorOutcome toolName msg

/-- The `tools/call` request parameters (mcpServer.js lines 528-538):
`name` and `arguments` may each be absent. -/
structure ToolCallParams where
  name : Option String := none
  arguments : Option ToolArgs := none
deriving DecidableEq, Repr

/-- `MCPServer.handleToolsCall` (mcpServer.js lines 528-538): reject only a
missing/falsy tool name (`Except.error` becomes a JSON-RPC error response);
otherwise pass the call to `executeTool`, defaulting absent arguments. -/
def handleToolsCall (env : ToolEnv) (params : Option ToolCallParams) :
    Except String Outcome :=
  match params with
  | none => .error "Tool name is required"
  | some p =>
      if !jsTruthy p.name then .error "Tool name is required"
      else .ok (executeTool env (p.name.getD "") (p.arguments.getD {}))

/-! ## Helper lemmas -/

theorem listFind_map_replace {α : Type} (m : JsMap α) (k : String) (v : α)
    (h : (listFind (fun p => p.1 == k) m).isSome = true) :
    listFind (fun p => p.1 == k) (m.map (fun p => if p.1 == k then (k, v) else p))
      = some (k, v) := by
  induction m with
  | nil => simp [listFind] at h
  | cons a as ih =>
      by_cases hk : (a.1 == k) = true
      · have hk2 : a.1 = k := by simpa using hk
        simp [listFind, hk2]
      · simp only [listFind, if_neg hk] at h
        simp only [List.map_cons, listFind, if_neg hk]
        exact ih h

theorem listFind_append_of_none {β : Type} (l1 l2 : List β) (p : β → Bool)
    (h : listFind p l1 = none) : listFind p (l1 ++ l2) = listFind p l2 := by
  induction l1 with
  | nil => rfl
  | cons a as ih =>
      by_cases hp : p a = true
      · simp [listFind, if_pos hp] at h
      · simp only [listFind, if_neg hp] at h
        simp only [List.cons_append, listFind, if_neg hp]
        exact ih h

theorem listFind_eq_none {β : Type} (l : List β) (p : β → Bool)
    (h : ∀ x ∈ l, p x = false) : listFind p l = none := by
  induction l with
  | nil => rfl
  | cons a as ih =>
      have ha : p a = false := h a (by simp)
      simp only [listFind, ha, Bool.false_eq_true, if_false]
      exact ih (fun x hx => h x (by simp [hx]))

theorem mapGet_mapSet_self {α : Type} (m : JsMap α) (k : String) (v : α) :
    mapGet (mapSet m k v) k = some v := by
  unfold mapGet mapSet mapHas
  by_cases h : (listFind (fun p => p.1 == k) m).isSome = true
  · rw [if_pos h, listFind_map_replace m k v h]
    rfl
  · have hnone : listFind (fun p => p.1 == k) m = none := by
      cases hf : listFind (fun p => p.1 == k) m with
      | none => rfl
      | some p => rw [hf] at h; simp at h
    rw [if_neg h, listFind_append_of_none _ _ _ hnone]
    simp [listFind]

theorem mapGet_mapDelete_self {α : Type} (m : JsMap α) (k : String) :
    mapGet (mapDelete m k) k = none := by
  unfold mapGet mapDelete
  induction m with
  | nil => rfl
  | cons a as ih =>
      by_cases hk : (a.1 == k) = true
      · simp only [List.filter_cons, bne, hk, Bool.not_true, Bool.false_eq_true,
          if_false]
        exact ih
      · have hk2 : (a.1 == k) = false := by
          cases hb : (a.1 == k) with
          | true => exact absurd hb hk
          | false => rfl
        simp only [List.filter_cons, bne, hk2, Bool.not_false, if_true, listFind,
          Bool.false_eq_true, if_false]
        exact ih

theorem startsWithL_refl (l : List Char) : startsWithL l l = true := by
  induction l with
  | nil => rfl
  | cons a as ih => simp [startsWithL, ih]

theorem includesL_self (l : List Char) : includesL l l = true := by
  cases l with
  | nil => rfl
  | cons a as => simp [includesL, startsWithL_refl]

theorem includesL_append_right (xs ys n : List Char)
    (h : includesL ys n = true) : includesL (xs ++ ys) n = true := by
  induction xs with
  | nil => exact h
  | cons a as ih => simp [includesL, ih]

theorem includesL_nil_right (l : List Char) : includesL l [] = true := by
  cases l with
  | nil => rfl
  | cons a as => simp [includesL, startsWithL]

theorem strIncludes_self (s : String) : strIncludes s s = true :=
  includesL_self s.data

theorem strIncludes_append_right (a b n : String)
    (h : strIncludes b n = true) : strIncludes (a ++ b) n = true := by
  unfold strIncludes at *
  rw [String.data_append]
  exact includesL_append_right a.data b.data n.data h

/-! ## Sample data for witnesses -/

/-- Sample task: an npm build task. -/
def taskBuildNpm : VsTask := { name := "build", source := "npm", scope := "workspace" }

/-- Sample live execution handle for `taskBuildNpm`. -/
def execBuildNpm : TaskExecution := { task := taskBuildNpm }

/-- Sample provisional success result as buffered by the end handler. -/
def resBuildProvisional : ExecutionResult :=
  { taskName := "build", success := true, duration := 5 }

/-! ## Claim theorems -/

/-- C2: when a provisional result with `success = true` is already buffered
under a handle key, a later process-exit event with exit code `c` patches it
to `exitCode = c` and `success = (c == 0)`; for `c = 1` the final result has
`success = false` and `exitCode = 1`. -/
theorem C2_process_exit_patches (s : TaskProviderState) (e : TaskExecution)
    (r : ExecutionResult) (c : Int)
    (hres : mapGet s.executionResults (getTaskId e.task) = some r)
    (_hsucc : r.success = true) :
    mapGet (onDidEndTaskProcess s e (some c)).executionResults (getTaskId e.task)
      = some { r with exitCode := some c, success := c == 0 } ∧
    (c = 1 →
      mapGet (onDidEndTaskProcess s e (some c)).executionResults (getTaskId e.task)
        = some { r with exitCode := some 1, success := false }) := by
  have hmain :
      mapGet (onDidEndTaskProcess s e (some c)).executionResults (getTaskId e.task)
        = some { r with exitCode := some c, success := c == 0 } := by
    unfold onDidEndTaskProcess
    simp only [hres]
    exact mapGet_mapSet_self _ _ _
  refine ⟨hmain, fun hc => ?_⟩
  subst hc
  simpa using hmain

theorem C2_witness :
    mapGet (TaskProviderState.mk [] [(getTaskId taskBuildNpm, resBuildProvisional)]).executionResults
        (getTaskId execBuildNpm.task) = some resBuildProvisional ∧
    resBuildProvisional.success = true ∧
    (mapGet (onDidEndTaskProcess
        (TaskProviderState.mk [] [(getTaskId taskBuildNpm, resBuildProvisional)])
        execBuildNpm (some 1)).executionResults (getTaskId execBuildNpm.task)
      = some { resBuildProvisional with exitCode := some 1, success := (1 : Int) == 0 } ∧
    ((1 : Int) = 1 →
      mapGet (onDidEndTaskProcess
          (TaskProviderState.mk [] [(getTaskId taskBuildNpm, resBuildProvisional)])
          execBuildNpm (some 1)).executionResults (getTaskId execBuildNpm.task)
        = some { resBuildProvisional with exitCode := some 1, success := false })) :=
  ⟨by decide, by decide,
    C2_process_exit_patches
      (TaskProviderState.mk [] [(getTaskId taskBuildNpm, resBuildProvisional)])
      execBuildNpm resBuildProvisional 1 (by decide) (by decide)⟩

/-- C4: when no end or process-exit event has been handled for the key (no
buffered result) and the handle is still active, the poll keeps waiting, the
5-minute timeout fires with a message referencing the timeout, the rejection
surfaces through the dispatch catch block as an error Outcome, and the
timeout leaves the state — in particular the `activeExecutions` entry —
untouched. -/
theorem C4_timeout_keeps_handle (s : TaskProviderState) (taskId taskName : String)
    (now startTime : Int)
    (hres : mapGet s.executionResults taskId = none)
    (hact : mapHas s.taskExecutions taskId = true) :
    checkCompletion s taskId taskName now startTime = .waiting ∧
    onTimeout s taskId taskName =
      (some ("Task \x27" ++ taskName ++ "\x27 timed out after 5 minutes"), s) ∧
    (toolErrorOutcome "execute_task"
        ("Task \x27" ++ taskName ++ "\x27 timed out after 5 minutes")).isError = true ∧
    strIncludes (toolErrorOutcome "execute_task"
        ("Task \x27" ++ taskName ++ "\x27 timed out after 5 minutes")).text
      "timed out" = true ∧
    (onTimeout s taskId taskName).2 = s ∧
    mapHas (onTimeout s taskId taskName).2.taskExecutions taskId = true := by
  refine ⟨?_, ?_, rfl, ?_, ?_, ?_⟩
  · unfold checkCompletion
    rw [hres, hact]
    rfl
  · unfold onTimeout
    rw [hact]
    rfl
  · show strIncludes (_ ++ ("Task \x27" ++ taskName ++ "\x27 timed out after 5 minutes"))
      "timed out" = true
    apply strIncludes_append_right
    apply strIncludes_append_right
    decide
  · unfold onTimeout
    rw [hact]
    rfl
  · unfold onTimeout
    rw [hact]
    exact hact

theorem C4_witness :
    mapGet (TaskProviderState.mk [(getTaskId taskBuildNpm, execBuildNpm)] []).executionResults
        (getTaskId taskBuildNpm) = none ∧
    mapHas (TaskProviderState.mk [(getTaskId taskBuildNpm, execBuildNpm)] []).taskExecutions
        (getTaskId taskBuildNpm) = true ∧
    (checkCompletion (TaskProviderState.mk [(getTaskId taskBuildNpm, execBuildNpm)] [])
        (getTaskId taskBuildNpm) "build" 7 3 = .waiting ∧
      onTimeout (TaskProviderState.mk [(getTaskId taskBuildNpm, execBuildNpm)] [])
          (getTaskId taskBuildNpm) "build" =
        (some ("Task \x27" ++ "build" ++ "\x27 timed out after 5 minutes"),
          TaskProviderState.mk [(getTaskId taskBuildNpm, execBuildNpm)] []) ∧
      (toolErrorOutcome "execute_task"
          ("Task \x27" ++ "build" ++ "\x27 timed out after 5 minutes")).isError = true ∧
      strIncludes (toolErrorOutcome "execute_task"
          ("Task \x27" ++ "build" ++ "\x27 timed out after 5 minutes")).text
        "timed out" = true ∧
      (onTimeout (TaskProviderState.mk [(getTaskId taskBuildNpm, execBuildNpm)] [])
          (getTaskId taskBuildNpm) "build").2 =
        TaskProviderState.mk [(getTaskId taskBuildNpm, execBuildNpm)] [] ∧
      mapHas (onTimeout (TaskProviderState.mk [(getTaskId taskBuildNpm, execBuildNpm)] [])
          (getTaskId taskBuildNpm) "build").2.taskExecutions (getTaskId taskBuildNpm) = true) :=
  ⟨by decide, by decide,
    C4_timeout_keeps_handle (TaskProviderState.mk [(getTaskId taskBuildNpm, execBuildNpm)] [])
      (getTaskId taskBuildNpm) "build" 7 3 (by decide) (by decide)⟩

/-- C5: a buffered result is consumed exactly once — the first poll that
sees it resolves with it and deletes it; with the key absent from
`activeExecutions`, a second poll finds nothing and resolves with the
synthesized fallback success result. -/
theorem C5_result_consumed_once (s : TaskProviderState) (taskId taskName : String)
    (r : ExecutionResult) (n1 t1 n2 t2 : Int)
    (hres : mapGet s.executionResults taskId = some r)
    (hinactive : mapHas s.taskExecutions taskId = false) :
    checkCompletion s taskId taskName n1 t1 =
      .resolved r { s with executionResults := mapDelete s.executionResults taskId } ∧
    mapGet (mapDelete s.executionResults taskId) taskId = none ∧
    checkCompletion { s with executionResults := mapDelete s.executionResults taskId }
        taskId taskName n2 t2 =
      .fallbackResolved { taskName := taskName, success := true, duration := n2 - t2 }
        { s with executionResults := mapDelete s.executionResults taskId } := by
  refine ⟨?_, mapGet_mapDelete_self _ _, ?_⟩
  · unfold checkCompletion
    rw [hres]
  · unfold checkCompletion
    rw [show mapGet (mapDelete s.executionResults taskId) taskId = none from
      mapGet_mapDelete_self _ _]
    show (if mapHas s.taskExecutions taskId = true then _ else _) = _
    rw [hinactive]
    simp

theorem C5_witness :
    mapGet (TaskProviderState.mk [] [(getTaskId taskBuildNpm, resBuildProvisional)]).executionResults
        (getTaskId taskBuildNpm) = some resBuildProvisional ∧
    mapHas (TaskProviderState.mk [] [(getTaskId taskBuildNpm, resBuildProvisional)]).taskExecutions
        (getTaskId taskBuildNpm) = false ∧
    (checkCompletion (TaskProviderState.mk [] [(getTaskId taskBuildNpm, resBuildProvisional)])
        (getTaskId taskBuildNpm) "build" 10 4 =
      .resolved resBuildProvisional
        { TaskProviderState.mk [] [(getTaskId taskBuildNpm, resBuildProvisional)] with
            executionResults :=
              mapDelete (TaskProviderState.mk [] [(getTaskId taskBuildNpm, resBuildProvisional)]).executionResults
                (getTaskId taskBuildNpm) } ∧
    mapGet (mapDelete (TaskProviderState.mk [] [(getTaskId taskBuildNpm, resBuildProvisional)]).executionResults
        (getTaskId taskBuildNpm)) (getTaskId taskBuildNpm) = none ∧
    checkCompletion
        { TaskProviderState.mk [] [(getTaskId taskBuildNpm, resBuildProvisional)] with
            executionResults :=
              mapDelete (TaskProviderState.mk [] [(getTaskId taskBuildNpm, resBuildProvisional)]).executionResults
                (getTaskId taskBuildNpm) }
        (getTaskId taskBuildNpm) "build" 20 6 =
      .fallbackResolved { taskName := "build", success := true, duration := 20 - 6 }
        { TaskProviderState.mk [] [(getTaskId taskBuildNpm, resBuildProvisional)] with
            executionResults :=
              mapDelete (TaskProviderState.mk [] [(getTaskId taskBuildNpm, resBuildProvisional)]).executionResults
                (getTaskId taskBuildNpm) }) :=
  ⟨by decide, by decide,
    C5_result_consumed_once
      (TaskProviderState.mk [] [(getTaskId taskBuildNpm, resBuildProvisional)])
      (getTaskId taskBuildNpm) "build" resBuildProvisional 10 4 20 6
      (by decide) (by decide)⟩

/-- C10 (implicit): a result already buffered under the new run's handle key
when `execute` starts polling — for example one leaked by an earlier
timed-out run with the same source+name+scope — is consumed by the very
first poll, which resolves with the stale result and deletes it, even
though the new run is still active. -/
theorem C10_stale_result_consumed (s : TaskProviderState) (taskId taskName : String)
    (r : ExecutionResult) (now startTime : Int)
    (hstale : mapGet s.executionResults taskId = some r)
    (_hactive : mapHas s.taskExecutions taskId = true) :
    checkCompletion s taskId taskName now startTime =
      .resolved r { s with executionResults := mapDelete s.executionResults taskId } ∧
    mapGet (mapDelete s.executionResults taskId) taskId = none := by
  refine ⟨?_, mapGet_mapDelete_self _ _⟩
  unfold checkCompletion
  rw [hstale]

theorem C10_witness :
    mapGet (TaskProviderState.mk [(getTaskId taskBuildNpm, execBuildNpm)]
        [(getTaskId taskBuildNpm, resBuildProvisional)]).executionResults
      (getTaskId taskBuildNpm) = some resBuildProvisional ∧
    mapHas (TaskProviderState.mk [(getTaskId taskBuildNpm, execBuildNpm)]
        [(getTaskId taskBuildNpm, resBuildProvisional)]).taskExecutions
      (getTaskId taskBuildNpm) = true ∧
    (checkCompletion (TaskProviderState.mk [(getTaskId taskBuildNpm, execBuildNpm)]
          [(getTaskId taskBuildNpm, resBuildProvisional)])
        (getTaskId taskBuildNpm) "build" 9 2 =
      .resolved resBuildProvisional
        { TaskProviderState.mk [(getTaskId taskBuildNpm, execBuildNpm)]
            [(getTaskId taskBuildNpm, resBuildProvisional)] with
            executionResults :=
              mapDelete (TaskProviderState.mk [(getTaskId taskBuildNpm, execBuildNpm)]
                  [(getTaskId taskBuildNpm, resBuildProvisional)]).executionResults
                (getTaskId taskBuildNpm) } ∧
    mapGet (mapDelete (TaskProviderState.mk [(getTaskId taskBuildNpm, execBuildNpm)]
          [(getTaskId taskBuildNpm, resBuildProvisional)]).executionResults
        (getTaskId taskBuildNpm)) (getTaskId taskBuildNpm) = none) :=
  ⟨by decide, by decide,
    C10_stale_result_consumed
      (TaskProviderState.mk [(getTaskId taskBuildNpm, execBuildNpm)]
        [(getTaskId taskBuildNpm, resBuildProvisional)])
      (getTaskId taskBuildNpm) "build" resBuildProvisional 9 2
      (by decide) (by decide)⟩

/-- C3: filtering enumeration. `enumerate(f)` is exactly the sublist of
`enumerate()` whose elements' name, source, or group contains `f`
case-insensitively, and the empty-string filter is a no-op. -/
theorem C3_enumerate_filter (tasks : List TaskInfo) (f : String) :
    (listTasksFiltered tasks (some f)).Sublist (listTasksFiltered tasks none) ∧
    (∀ t, t ∈ listTasksFiltered tasks (some f) ↔
       t ∈ listTasksFiltered tasks none ∧
         (strIncludesCI t.name f || strIncludesCI t.source f ||
           strIncludesCI t.group f) = true) ∧
    listTasksFiltered tasks (some "") = listTasksFiltered tasks none := by
  have hnone : listTasksFiltered tasks none = tasks := rfl
  have hlast : listTasksFiltered tasks (some "") = listTasksFiltered tasks none := rfl
  by_cases hf : jsTruthyStr f = true
  · have hfl : ∃ a as, lowerStr f = a :: as := by
      unfold jsTruthyStr at hf
      unfold lowerStr
      cases hd : f.data with
      | nil => rw [hd] at hf; simp at hf
      | cons a as => exact ⟨Char.toLower a, as.map Char.toLower, rfl⟩
    have hsome : listTasksFiltered tasks (some f) =
        tasks.filter (taskMatchesFilter f) := by
      unfold listTasksFiltered jsTruthy
      rw [if_pos hf]
      rfl
    have hpred : ∀ t : TaskInfo, taskMatchesFilter f t =
        (strIncludesCI t.name f || strIncludesCI t.source f ||
          strIncludesCI t.group f) := by
      intro t
      unfold taskMatchesFilter
      by_cases hg : jsTruthyStr t.group = true
      · rw [hg]
        simp
      · have hgd : t.group.data = [] := by
          unfold jsTruthyStr at hg
          cases hd : t.group.data with
          | nil => rfl
          | cons a as => rw [hd] at hg; simp at hg
        have hgl : lowerStr t.group = [] := by
          unfold lowerStr
          rw [hgd]
          rfl
        have hc : strIncludesCI t.group f = false := by
          obtain ⟨a, as, hcons⟩ := hfl
          unfold strIncludesCI
          rw [hgl, hcons]
          rfl
        rw [hc]
        simp
    refine ⟨?_, ?_, hlast⟩
    · rw [hsome, hnone]
      exact List.filter_sublist _
    · intro t
      rw [hsome, hnone, List.mem_filter, hpred t]
  · have hsome : listTasksFiltered tasks (some f) = tasks := by
      unfold listTasksFiltered jsTruthy
      rw [if_neg hf]
    have hfl : lowerStr f = [] := by
      unfold jsTruthyStr at hf
      unfold lowerStr
      cases hd : f.data with
      | nil => rfl
      | cons a as => rw [hd] at hf; simp at hf
    refine ⟨?_, ?_, hlast⟩
    · rw [hsome, hnone]
    · intro t
      have hn : strIncludesCI t.name f = true := by
        unfold strIncludesCI
        rw [hfl]
        exact includesL_nil_right _
      rw [hsome, hnone, hn]
      simp

/-! ## Further sample data -/

/-- Sample task: a grunt build task sharing the name `build`. -/
def taskBuildGrunt : VsTask := { name := "build", source := "grunt", scope := "workspace" }

/-- Enumerated descriptor for the grunt build task. -/
def infoBuildGrunt : TaskInfo :=
  { name := "build", source := "grunt", group := "none", scope := "workspace",
    definition := "type: grunt" }

/-- Enumerated descriptor for the npm build task. -/
def infoBuildNpm : TaskInfo :=
  { name := "build", source := "npm", group := "none", scope := "workspace",
    definition := "type: npm" }

/-- A sample tool environment whose registry holds only the npm build task. -/
def envBuildOnly : ToolEnv :=
  { taskInfos := [infoBuildNpm], vsTasks := [taskBuildNpm],
    provider := TaskProviderState.mk [] [], awaitResult := Except.error "pending",
    termSucceeds := true, runningTasks := [] }

/-! ## Dead code in the name/source resolution -/

theorem listFind_and_none {β : Type} (l : List β) (p q : β → Bool)
    (h : listFind p l = none) : listFind (fun x => p x && q x) l = none := by
  induction l with
  | nil => rfl
  | cons a as ih =>
      by_cases hp : p a = true
      · simp [listFind, if_pos hp] at h
      · simp only [listFind, if_neg hp] at h
        have hpa : p a = false := by
          cases hb : p a with
          | true => exact absurd hb hp
          | false => rfl
        simp only [listFind, hpa, Bool.false_and, Bool.false_eq_true, if_false]
        exact ih h

/-- The name+source fallback of the resolution is unreachable code: it only
runs when no task matched the name alone, but any name+source match would
also have matched the name alone.  Hence the source argument never changes
the resolved descriptor. -/
theorem findTaskInfo_source_ignored (tasks : List TaskInfo) (n : String)
    (src : Option String) :
    findTaskInfo tasks n src = listFind (fun t => t.name == n) tasks := by
  unfold findTaskInfo
  cases hfind : listFind (fun t => t.name == n) tasks with
  | some t => rfl
  | none =>
      by_cases hs : jsTruthy src = true
      · rw [if_pos hs]
        exact listFind_and_none tasks _ _ hfind
      · rw [if_neg hs]

/-! ## Remaining claim theorems -/

/-- C1 (recording the code defect): with the registry enumerating the grunt
build task before the npm one, `getTaskDetails("build", "npm")` resolves the
grunt descriptor and renders `Source: grunt`, not `Source: npm` — the
supplied source does not disambiguate; with source omitted, the first
enumerated name match is chosen (here the npm one when it comes first). -/
theorem C1_source_does_not_disambiguate :
    findTaskInfo [infoBuildGrunt, infoBuildNpm] "build" (some "npm")
      = some infoBuildGrunt ∧
    (getTaskDetailsOutcome [infoBuildGrunt, infoBuildNpm] "build" (some "npm")).isError
      = false ∧
    strIncludes (getTaskDetailsOutcome [infoBuildGrunt, infoBuildNpm] "build"
        (some "npm")).text "Source: grunt" = true ∧
    strIncludes (getTaskDetailsOutcome [infoBuildGrunt, infoBuildNpm] "build"
        (some "npm")).text "Source: npm" = false ∧
    findTask [taskBuildGrunt, taskBuildNpm] "build" (some "npm") = some taskBuildGrunt ∧
    findTaskInfo [infoBuildNpm, infoBuildGrunt] "build" none = some infoBuildNpm := by
  decide

/-- C6: executing a name matching no enumerated task produces — through the
provider throw, the provider catch rewrap, and the dispatch catch — an
error-flagged Outcome whose text contains the enumeration of available
source:name pairs. -/
theorem C6_execute_unknown_name (env : ToolEnv) (name : String) (src : Option String)
    (hname : jsTruthyStr name = true)
    (h : ∀ t ∈ env.vsTasks, t.name ≠ name) :
    findTask env.vsTasks name src = none ∧
    executeTool env "execute_task" (ToolArgs.mk (some name) src none) =
      toolErrorOutcome "execute_task" (providerWrap name (notFoundMsg env.vsTasks name)) ∧
    (executeTool env "execute_task" (ToolArgs.mk (some name) src none)).isError = true ∧
    strIncludes (executeTool env "execute_task" (ToolArgs.mk (some name) src none)).text
      (availableTasksStr env.vsTasks) = true := by
  have hb : ∀ t ∈ env.vsTasks, (t.name == name) = false := by
    intro t ht
    cases hbeq : t.name == name with
    | true => exact absurd (by simpa using hbeq) (h t ht)
    | false => rfl
  have hfind : findTask env.vsTasks name src = none := by
    unfold findTask
    rw [listFind_eq_none _ _ hb]
    by_cases hs : jsTruthy src = true
    · rw [if_pos hs]
      exact listFind_and_none _ _ _ (listFind_eq_none _ _ hb)
    · rw [if_neg hs]
  have hjs : jsTruthy (some name) = true := hname
  have hrun : runTool env "execute_task" (ToolArgs.mk (some name) src none) =
      Except.error (providerWrap name (notFoundMsg env.vsTasks name)) := by
    unfold runTool mcpExecuteTaskHandler
    rw [if_neg (by decide : ¬((("execute_task" : String) == "list_tasks") = true))]
    rw [if_pos (by decide : ((("execute_task" : String) == "execute_task") = true))]
    simp only [hjs, Bool.not_true, Bool.false_eq_true, if_false, Option.getD_some]
    rw [hfind]
  have hexec : executeTool env "execute_task" (ToolArgs.mk (some name) src none) =
      toolErrorOutcome "execute_task" (providerWrap name (notFoundMsg env.vsTasks name)) := by
    unfold executeTool
    rw [hrun]
  refine ⟨hfind, hexec, by rw [hexec]; rfl, ?_⟩
  rw [hexec]
  show strIncludes (toolErrorOutcome _ _).text _ = true
  unfold toolErrorOutcome providerWrap notFoundMsg
  apply strIncludes_append_right
  apply strIncludes_append_right
  apply strIncludes_append_right
  exact strIncludes_self _

theorem C6_witness :
    jsTruthyStr "deploy" = true ∧
    (∀ t ∈ envBuildOnly.vsTasks, t.name ≠ "deploy") ∧
    (findTask envBuildOnly.vsTasks "deploy" none = none ∧
      executeTool envBuildOnly "execute_task" (ToolArgs.mk (some "deploy") none none) =
        toolErrorOutcome "execute_task"
          (providerWrap "deploy" (notFoundMsg envBuildOnly.vsTasks "deploy")) ∧
      (executeTool envBuildOnly "execute_task"
          (ToolArgs.mk (some "deploy") none none)).isError = true ∧
      strIncludes (executeTool envBuildOnly "execute_task"
          (ToolArgs.mk (some "deploy") none none)).text
        (availableTasksStr envBuildOnly.vsTasks) = true) :=
  ⟨by decide, by decide,
    C6_execute_unknown_name envBuildOnly "deploy" none (by decide) (by decide)⟩

/-- C7: terminating a name with no matching active execution returns `false`
from the provider (the throw is caught inside the method) and renders as an
error-flagged Outcome; the operation is a total function and raises
nothing past its boundary. -/
theorem C7_terminate_not_running (s : TaskProviderState) (name : String) (b : Bool)
    (h : ∀ e ∈ mapValues s.taskExecutions, e.task.name ≠ name) :
    terminateTaskProvider s name b = false ∧
    terminateOutcome (terminateTaskProvider s name b) name =
      { text := "Failed to terminate task \x27" ++ name ++
          "\x27. Task may not be running or termination failed.", isError := true } := by
  have hb : ∀ e ∈ mapValues s.taskExecutions, (e.task.name == name) = false := by
    intro e he
    cases hbeq : e.task.name == name with
    | true => exact absurd (by simpa using hbeq) (h e he)
    | false => rfl
  have hterm : terminateTaskProvider s name b = false := by
    unfold terminateTaskProvider
    rw [listFind_eq_none _ _ hb]
  refine ⟨hterm, ?_⟩
  rw [hterm]
  rfl

theorem C7_witness :
    (∀ e ∈ mapValues (TaskProviderState.mk [(getTaskId taskBuildNpm, execBuildNpm)] []).taskExecutions,
      e.task.name ≠ "test") ∧
    (terminateTaskProvider (TaskProviderState.mk [(getTaskId taskBuildNpm, execBuildNpm)] [])
        "test" true = false ∧
      terminateOutcome (terminateTaskProvider
          (TaskProviderState.mk [(getTaskId taskBuildNpm, execBuildNpm)] []) "test" true)
        "test" =
      { text := "Failed to terminate task \x27" ++ "test" ++
          "\x27. Task may not be running or termination failed.", isError := true }) :=
  ⟨by decide,
    C7_terminate_not_running (TaskProviderState.mk [(getTaskId taskBuildNpm, execBuildNpm)] [])
      "test" true (by decide)⟩

/-- C8: whatever failure a routed operation handler raises, the dispatch
catch block converts it into an Outcome with `isError = true` whose text is
the context prefix followed by the reason — nothing propagates past the
dispatch boundary. -/
theorem C8_dispatch_catches_handler_errors (env : ToolEnv) (toolName : String)
    (args : ToolArgs) (msg : String)
    (h : runTool env toolName args = Except.error msg) :
    executeTool env toolName args = toolErrorOutcome toolName msg ∧
    (executeTool env toolName args).isError = true ∧
    (executeTool env toolName args).text =
      "Error executing tool \x27" ++ toolName ++ "\x27: " ++ msg := by
  have he : executeTool env toolName args = toolErrorOutcome toolName msg := by
    unfold executeTool
    rw [h]
  exact ⟨he, by rw [he]; rfl, by rw [he]; rfl⟩

theorem C8_witness :
    runTool envBuildOnly "bogus_tool" (ToolArgs.mk none none none) =
      Except.error ("Unknown tool: " ++ "bogus_tool") ∧
    (executeTool envBuildOnly "bogus_tool" (ToolArgs.mk none none none) =
        toolErrorOutcome "bogus_tool" ("Unknown tool: " ++ "bogus_tool") ∧
      (executeTool envBuildOnly "bogus_tool" (ToolArgs.mk none none none)).isError = true ∧
      (executeTool envBuildOnly "bogus_tool" (ToolArgs.mk none none none)).text =
        "Error executing tool \x27" ++ "bogus_tool" ++ "\x27: " ++
          ("Unknown tool: " ++ "bogus_tool")) :=
  ⟨rfl,
    C8_dispatch_catches_handler_errors envBuildOnly "bogus_tool"
      (ToolArgs.mk none none none) ("Unknown tool: " ++ "bogus_tool") rfl⟩

/-- C9 counterexample: a `tools/call` of `execute_task` with no `taskName`
is not rejected at the dispatcher boundary — `handleToolsCall` returns an
ordinary `Except.ok` result whose Outcome carries the guard message thrown
inside the Facade method and caught by the dispatch catch block. -/
theorem C9_counterexample :
    handleToolsCall envBuildOnly
        (some (ToolCallParams.mk (some "execute_task") (some (ToolArgs.mk none none none)))) =
      Except.ok { text := "Error executing tool \x27execute_task\x27: taskName is required",
                  isError := true } := by
  rfl

/-- C9 amended: a missing `taskName` on `execute_task` or `terminate_task`
is detected by the guard at the top of the Facade method, not at the
dispatcher; the dispatch catch block renders it as an error Outcome inside
an ordinary successful response. Only a missing tool name is rejected at
the dispatcher boundary. -/
theorem C9_taskName_guard_inside_facade (env : ToolEnv) (args : ToolArgs)
    (h : jsTruthy args.taskName = false) :
    handleToolsCall env (some (ToolCallParams.mk (some "execute_task") (some args))) =
      Except.ok (toolErrorOutcome "execute_task" "taskName is required") ∧
    handleToolsCall env (some (ToolCallParams.mk (some "terminate_task") (some args))) =
      Except.ok (toolErrorOutcome "terminate_task" "taskName is required") ∧
    handleToolsCall env none = Except.error "Tool name is required" := by
  have hguard : (!jsTruthy args.taskName) = true := by rw [h]; rfl
  refine ⟨?_, ?_, rfl⟩
  · show (if (!jsTruthy (some ("execute_task" : String))) = true then
        Except.error "Tool name is required"
      else Except.ok (executeTool env "execute_task" args)) =
      Except.ok (toolErrorOutcome "execute_task" "taskName is required")
    rw [if_neg (by decide : ¬((!jsTruthy (some ("execute_task" : String))) = true))]
    unfold executeTool runTool mcpExecuteTaskHandler
    rw [if_neg (by decide : ¬((("execute_task" : String) == "list_tasks") = true))]
    rw [if_pos (by decide : ((("execute_task" : String) == "execute_task") = true))]
    simp only [Option.getD_some, hguard, if_true]
  · show (if (!jsTruthy (some ("terminate_task" : String))) = true then
        Except.error "Tool name is required"
      else Except.ok (executeTool env "terminate_task" args)) =
      Except.ok (toolErrorOutcome "terminate_task" "taskName is required")
    rw [if_neg (by decide : ¬((!jsTruthy (some ("terminate_task" : String))) = true))]
    unfold executeTool runTool mcpTerminateTaskHandler
    rw [if_neg (by decide : ¬((("terminate_task" : String) == "list_tasks") = true))]
    rw [if_neg (by decide : ¬((("terminate_task" : String) == "execute_task") = true))]
    rw [if_neg (by decide : ¬((("terminate_task" : String) == "get_running_tasks") = true))]
    rw [if_pos (by decide : ((("terminate_task" : String) == "terminate_task") = true))]
    simp only [Option.getD_some, hguard, if_true]

theorem C9_witness :
    jsTruthy (ToolArgs.mk none none none).taskName = false ∧
    (handleToolsCall envBuildOnly
        (some (ToolCallParams.mk (some "execute_task") (some (ToolArgs.mk none none none)))) =
      Except.ok (toolErrorOutcome "execute_task" "taskName is required") ∧
    handleToolsCall envBuildOnly
        (some (ToolCallParams.mk (some "terminate_task") (some (ToolArgs.mk none none none)))) =
      Except.ok (toolErrorOutcome "terminate_task" "taskName is required") ∧
    handleToolsCall envBuildOnly none = Except.error "Tool name is required") :=
  ⟨rfl,
    C9_taskName_guard_inside_facade envBuildOnly (ToolArgs.mk none none none) rfl⟩

end VsMcpTask
